import Mathlib

/-
  Verification of the lead-intake funnel of `aplicativo_imobiliaria.py`.

  The development shallowly embeds the validators/normalizers, the dedup-key
  generator (including a concrete SHA-256 over `Nat`), the Excel/CSV upsert
  logic of `salvar_lead`, and the funnel state machine of `app`.

  Modelling conventions:
  * Python strings are Lean `String`s; character classes (`\d`, `\s`,
    `str.isdigit`, `str.strip`, `str.lower`) are modelled on ASCII, which
    covers every character class the source actually tests.
  * pandas `DataFrame`s are `Table`s: an ordered column-name list plus rows of
    string cells; `NaN` cells arising from missing columns are modelled as "".
  * Filesystem effects are explicit state: the primary `.xlsx` file is either
    absent, present-but-unloadable (any `read_excel` exception), or a loaded
    table; writes are modelled as succeeding (the claims under study concern
    the load-failure path).
  * Nondeterministic context (uuid, wall clock, UTM query params, env vars) is
    an explicit `Ctx` record threaded through `salvar_lead`.
-/

set_option maxRecDepth 10000

namespace Imob

/- ===== ASCII character classes =====
   `isSpaceChar` models Python's whitespace class (space, \t, \n, \r, \v, \f)
   used by `str.strip`, `str.split` and the regex class `\s`;
   `isDigitChar` models `str.isdigit` / regex `\d` on ASCII. -/

def isSpaceChar (c : Char) : Bool :=
  c.toNat = 32 || c.toNat = 9 || c.toNat = 10 || c.toNat = 13 ||
  c.toNat = 11 || c.toNat = 12

def isDigitChar (c : Char) : Bool :=
  48 ≤ c.toNat && c.toNat ≤ 57

/-- Python `str.strip()`: drop leading and trailing whitespace. -/
def stripList (l : List Char) : List Char :=
  ((l.dropWhile isSpaceChar).reverse.dropWhile isSpaceChar).reverse

def pyStrip (s : String) : String := ⟨stripList s.data⟩

/-- Python `str.lower()` (ASCII model). -/
def pyLower (s : String) : String := ⟨s.data.map Char.toLower⟩

/-- Number of words produced by Python `str.split()` (split on whitespace
    runs, dropping empty pieces).  `inWord` tracks whether the previous
    character was a non-space. -/
def wcAux : Bool → List Char → Nat
  | _, [] => 0
  | inWord, c :: t =>
    if isSpaceChar c then wcAux false t
    else (if inWord then 0 else 1) + wcAux true t

def wordCount (l : List Char) : Nat := wcAux false l

/-- Python `str.isdigit()`: nonempty and all digits (ASCII model). -/
def pyIsDigit (s : String) : Bool :=
  !s.data.isEmpty && s.data.all isDigitChar

/-- Python `int(v)` on an all-digit string: decimal value. -/
def pyInt (l : List Char) : Nat :=
  l.foldl (fun a c => a * 10 + (c.toNat - 48)) 0

def digitChar (d : Nat) : Char := Char.ofNat (48 + d)

/-- Big-endian decimal digits of `n` (fuel-based so that it reduces in the
    kernel); `fuel ≥ n` suffices. -/
def natReprAux : Nat → Nat → List Char
  | 0, _ => []
  | fuel + 1, n => if n = 0 then [] else natReprAux fuel (n / 10) ++ [digitChar (n % 10)]

/-- Python `str(n)` for a nonnegative integer. -/
def natRepr (n : Nat) : String :=
  if n = 0 then "0" else ⟨natReprAux n n⟩

/-- A value stored in the session's `lead` dict: Python keeps `int` for the
    normalized `metragem`/`quartos` and `str` for everything else. -/
inductive Valor where
  | str (s : String)
  | int (n : Nat)
deriving DecidableEq, Repr

/-- Rendering of a lead value as the cell text it denotes in a row. -/
def renderValor : Valor → String
  | .str s => s
  | .int n => natRepr n

/- ===== Validators (source lines 67-105) ===== -/

def validar_nome (nome : String) : Bool :=
  decide (2 ≤ wordCount (stripList nome.data))

def validar_telefone (telefone : String) : Bool :=
  telefone.data.length == 11 && telefone.data.all isDigitChar

/-- `re.fullmatch(r"[^@\s]+@[^@\s]+\.[^@\s]+", email)`.  The regex language
    is exactly: strings with no whitespace, exactly one `@`, a nonempty part
    before the `@`, and after the `@` a dot occurring at neither the first nor
    the last position (the middle part may itself contain further dots, since
    `[^@\s]` accepts `.`). -/
def validar_email (email : String) : Bool :=
  let l := email.data
  (l.count '@' == 1) && l.all (fun c => !isSpaceChar c) &&
  !(l.takeWhile (fun c => c != '@')).isEmpty &&
  ((((l.dropWhile (fun c => c != '@')).tail).drop 1).dropLast).contains '.'

def validar_operacao (op : String) : Bool :=
  op == "1" || op == "2"

def validar_tipo_imovel (tipo : String) : Bool :=
  let w := pyLower (pyStrip tipo)
  w == "casa" || w == "apartamento" || w == "outro"

def validar_numero (valor : String) : Bool :=
  pyIsDigit valor

def validar_urgencia (u : String) : Bool :=
  let w := pyLower (pyStrip u)
  w == "alta" || w == "media" || w == "baixa"

def VALIDADORES : List (String × (String → Bool)) :=
  [("nome", validar_nome),
   ("telefone", validar_telefone),
   ("email", validar_email),
   ("operacao", validar_operacao),
   ("tipo_imovel", validar_tipo_imovel),
   ("metragem", validar_numero),
   ("quartos", validar_numero),
   ("faixa_preco", fun _ => true),
   ("urgencia", validar_urgencia)]

/-- `VALIDADORES.get(chave, lambda x: True)` (source line 360). -/
def validadorFor (chave : String) : String → Bool :=
  match VALIDADORES.lookup chave with
  | some f => f
  | none => fun _ => true

/-- `normalizar_campo` (source lines 108-116). -/
def normalizar_campo (chave : String) (valor : String) : Valor :=
  let v := pyStrip valor
  if (chave = "metragem" ∨ chave = "quartos") ∧ pyIsDigit v then .int (pyInt v.data)
  else if chave = "tipo_imovel" ∨ chave = "urgencia" then .str (pyLower v)
  else if chave = "operacao" then .str (if v = "1" then "compra" else "aluguel")
  else .str v

/- ===== Funnel questions (source lines 53-63) ===== -/

def PERGUNTAS : List (String × String) :=
  [("nome", "Qual é o seu nome completo?"),
   ("telefone", "Informe seu telefone com DDD (11 dígitos, ex: 11987654321):"),
   ("email", "Qual é o seu e-mail?"),
   ("operacao", "Você deseja comprar ou alugar? (Digite 1 para Compra ou 2 para Aluguel)"),
   ("tipo_imovel", "Qual tipo de imóvel você procura? (casa, apartamento ou outro)"),
   ("metragem", "Qual a metragem desejada? (apenas números, ex: 80)"),
   ("quartos", "Quantos quartos você deseja? (apenas números)"),
   ("faixa_preco", "Qual a faixa de preço que você tem em mente? (pode responder livremente)"),
   ("urgencia", "Qual é a urgência da sua busca? (alta, media, baixa)")]

/-- `list(PERGUNTAS.keys())`. -/
def chaves : List String := PERGUNTAS.map Prod.fst

/-- `PERGUNTAS[chave]` (total model; the source only indexes known keys). -/
def perguntaDe (chave : String) : String :=
  (PERGUNTAS.lookup chave).getD ""

/-- `mensagens_erro` (source lines 371-380) with the `.get` default of
    line 381. -/
def mensagens_erro : List (String × String) :=
  [("nome", "Por favor, informe nome e sobrenome."),
   ("telefone", "Telefone deve ter 11 dígitos (DDD + número), ex.: 11987654321."),
   ("email", "Digite um e-mail válido, ex.: nome@dominio.com."),
   ("operacao", "Responda com 1 (Compra) ou 2 (Aluguel)."),
   ("tipo_imovel", "Escolha entre casa, apartamento ou outro."),
   ("metragem", "Digite apenas números, ex.: 80."),
   ("quartos", "Digite apenas números, ex.: 2."),
   ("urgencia", "Responda alta, media ou baixa.")]

def erroDe (chave : String) : String :=
  (mensagens_erro.lookup chave).getD "A resposta não é válida. Tente novamente."

/- ===== SHA-256 over `Nat` (for `hashlib.sha256(...).hexdigest()`) =====
   Words are naturals reduced modulo 2^32 = 4294967296 at every arithmetic
   step. -/

/-- UTF-8 encoding of one scalar value (`str.encode("utf-8")`). -/
def utf8Char (c : Char) : List Nat :=
  let n := c.toNat
  if n < 128 then [n]
  else if n < 2048 then [192 + n / 64, 128 + n % 64]
  else if n < 65536 then [224 + n / 4096, 128 + (n / 64) % 64, 128 + n % 64]
  else [240 + n / 262144, 128 + (n / 4096) % 64, 128 + (n / 64) % 64, 128 + n % 64]

def utf8Bytes (s : String) : List Nat :=
  s.data.foldr (fun c acc => utf8Char c ++ acc) []

def rotr32 (x n : Nat) : Nat :=
  ((x >>> n) ||| (x <<< (32 - n))) % 4294967296

def sha256K : List Nat :=
  [1116352408, 1899447441, 3049323471, 3921009573, 961987163, 1508970993,
   2453635748, 2870763221, 3624381080, 310598401, 607225278, 1426881987,
   1925078388, 2162078206, 2614888103, 3248222580, 3835390401, 4022224774,
   264347078, 604807628, 770255983, 1249150122, 1555081692, 1996064986,
   2554220882, 2821834349, 2952996808, 3210313671, 3336571891, 3584528711,
   113926993, 338241895, 666307205, 773529912, 1294757372, 1396182291,
   1695183700, 1986661051, 2177026350, 2456956037, 2730485921, 2820302411,
   3259730800, 3345764771, 3516065817, 3600352804, 4094571909, 275423344,
   430227734, 506948616, 659060556, 883997877, 958139571, 1322822218,
   1537002063, 1747873779, 1955562222, 2024104815, 2227730452, 2361852424,
   2428436474, 2756734187, 3204031479, 3329325298]

def sha256H0 : List Nat :=
  [1779033703, 3144134277, 1013904242, 2773480762,
   1359893119, 2600822924, 528734635, 1541459225]

/-- One message-schedule step; `acc` holds `W` so far, most recent first. -/
def schedStep (acc : List Nat) (_i : Nat) : List Nat :=
  let w2 := acc.getD 1 0
  let w7 := acc.getD 6 0
  let w15 := acc.getD 14 0
  let w16 := acc.getD 15 0
  let s0 := rotr32 w15 7 ^^^ rotr32 w15 18 ^^^ (w15 >>> 3)
  let s1 := rotr32 w2 17 ^^^ rotr32 w2 19 ^^^ (w2 >>> 10)
  ((w16 + s0 + w7 + s1) % 4294967296) :: acc

/-- Expand a 16-word block to the 64-word schedule `W`. -/
def schedule (block : List Nat) : List Nat :=
  ((List.range 48).foldl schedStep block.reverse).reverse

/-- One compression round on state `[a,b,c,d,e,f,g,h]`. -/
def compressStep (st : List Nat) (kw : Nat × Nat) : List Nat :=
  match st with
  | [a, b, c, d, e, f, g, h] =>
    let S1 := rotr32 e 6 ^^^ rotr32 e 11 ^^^ rotr32 e 25
    let ch := (e &&& f) ^^^ ((e ^^^ 4294967295) &&& g)
    let t1 := (h + S1 + ch + kw.1 + kw.2) % 4294967296
    let S0 := rotr32 a 2 ^^^ rotr32 a 13 ^^^ rotr32 a 22
    let mj := (a &&& b) ^^^ (a &&& c) ^^^ (b &&& c)
    let t2 := (S0 + mj) % 4294967296
    [(t1 + t2) % 4294967296, a, b, c, (d + t1) % 4294967296, e, f, g]
  | _ => st

def stepBlock (H : List Nat) (block : List Nat) : List Nat :=
  let W := schedule block
  let st := (sha256K.zip W).foldl compressStep H
  (H.zip st).map (fun p => (p.1 + p.2) % 4294967296)

/-- Pack bytes into big-endian 32-bit words, four at a time. -/
def bytesToWords : List Nat → List Nat
  | a :: b :: c :: d :: t => (((a * 256 + b) * 256 + c) * 256 + d) :: bytesToWords t
  | _ => []

/-- Split a word list into 16-word blocks (fuel-based for kernel reduction). -/
def chunksOf16 : Nat → List Nat → List (List Nat)
  | 0, _ => []
  | _, [] => []
  | fuel + 1, l => l.take 16 :: chunksOf16 fuel (l.drop 16)

/-- SHA-256 padding: append 0x80, zero bytes to 56 mod 64, then the bit
    length as 8 big-endian bytes. -/
def shaPad (m : List Nat) : List Nat :=
  let L := m.length
  let z := (119 - L % 64) % 64
  m ++ [128] ++ List.replicate z 0 ++
    (List.range 8).map (fun i => ((8 * L) >>> (8 * (7 - i))) % 256)

def hexChar (d : Nat) : Char :=
  if d < 10 then Char.ofNat (48 + d) else Char.ofNat (87 + d)

/-- Lowercase hexadecimal rendering of one 32-bit word. -/
def hexWord (w : Nat) : List Char :=
  (List.range 8).map (fun i => hexChar ((w >>> (4 * (7 - i))) % 16))

/-- `hashlib.sha256(s.encode("utf-8")).hexdigest()`. -/
def sha256hex (s : String) : String :=
  let bytes := shaPad (utf8Bytes s)
  let words := bytesToWords bytes
  let blocks := chunksOf16 words.length words
  let H := blocks.foldl stepBlock sha256H0
  ⟨H.foldr (fun w acc => hexWord w ++ acc) []⟩

/- ===== Dedup key (`_gerar_dedup_key`, source lines 138-145) ===== -/

/-- `lead.get(k, "")` on a string dict. -/
def lookupD (l : List (String × String)) (k d : String) : String :=
  (l.lookup k).getD d

/-- `tel = re.sub(r"\D+", "", str(lead.get("telefone", "")))` followed by
    `tel = tel if len(tel) == 11 else ""` (source lines 140-142). -/
def canonTelefone (lead : List (String × String)) : String :=
  let tel0 : String := ⟨(lookupD lead "telefone" "").data.filter isDigitChar⟩
  if tel0.data.length = 11 then tel0 else ""

/-- `email = (lead.get("email", "") or "").strip().lower()` (source line 143). -/
def canonEmail (lead : List (String × String)) : String :=
  pyLower (pyStrip (lookupD lead "email" ""))

/-- The pre-hash string `base = f"{tel}|{email}"` (source line 144). -/
def dedupBase (lead : List (String × String)) : String :=
  ⟨(canonTelefone lead).data ++ '|' :: (canonEmail lead).data⟩

def gerar_dedup_key (lead : List (String × String)) : String :=
  sha256hex (dedupBase lead)

/- ===== The persisted stores (`salvar_lead`, source lines 119-212) ===== -/

/-- A pandas `DataFrame`: ordered column names and aligned rows of string
    cells (`NaN` modelled as `""`). -/
structure Table where
  cols : List String
  rows : List (List String)
deriving DecidableEq, Repr

/-- `row[c]` for a row aligned with `cols`: out-of-range / missing column
    reads give `""` (the `NaN` model). -/
def getCell (cols row : List String) (c : String) : String :=
  row.getD (List.indexOf c cols) ""

/-- One iteration of the update loop (source lines 198-201):
    `if col not in atual.columns: atual[col] = ""` then
    `atual.at[idx, col] = df.iloc[0][col]`. -/
def updStep (idx : Nat) (st : List String × List (List String))
    (cv : String × String) : List String × List (List String) :=
  let cols := if st.1.contains cv.1 then st.1 else st.1 ++ [cv.1]
  let rows := if st.1.contains cv.1 then st.2 else st.2.map (fun r => r ++ [""])
  (cols, rows.set idx ((rows.getD idx []).set (List.indexOf cv.1 cols) cv.2))

/-- The whole update loop over the entry's columns. -/
def applyUpdate (idx : Nat) (registro : List (String × String))
    (cols : List String) (rows : List (List String)) :
    List String × List (List String) :=
  registro.foldl (updStep idx) (cols, rows)

/-- `pd.concat([atual, df], ignore_index=True)` for a one-row `df`: new
    columns are appended after `atual`'s, old rows get `""` (`NaN`) in them,
    and the new row is aligned to the combined columns. -/
def concatTables (atual : Table) (dfCols dfRow : List String) : Table :=
  let newCols := atual.cols ++ dfCols.filter (fun c => !atual.cols.contains c)
  ⟨newCols,
   atual.rows.map (fun r => r ++ List.replicate (newCols.length - atual.cols.length) "") ++
   [newCols.map (fun c => getCell dfCols dfRow c)]⟩

/-- The primary `imobiliaria_leads.xlsx`: absent, present but unloadable
    (`pd.read_excel` raises for any reason), or a loaded table. -/
inductive XlsxFile where
  | absent
  | corrupt
  | table (t : Table)
deriving DecidableEq, Repr

/-- The secondary `imobiliaria_leads.csv` as raw lines (header included when
    the file was created by `_append_to_csv`). -/
inductive CsvFile where
  | absent
  | file (lines : List (List String))
deriving DecidableEq, Repr

/-- `_append_to_csv` (source lines 132-135): header only when creating. -/
def appendCsv (csv : CsvFile) (dfCols dfRow : List String) : CsvFile :=
  match csv with
  | .absent => .file [dfCols, dfRow]
  | .file lines => .file (lines ++ [dfRow])

structure FileState where
  xlsx : XlsxFile
  csv : CsvFile
deriving DecidableEq, Repr

inductive Loc where
  | xlsx
  | csv
deriving DecidableEq, Repr

/-- Session/environment data the record rows depend on: `lead_id`
    (uuid), `criado_em` (wall clock), `APP_ORIGIN`, and the UTM query
    parameters captured at session start. -/
structure Ctx where
  lead_id : String
  criado_em : String
  app_origin : String
  utm_source : String
  utm_medium : String
  utm_campaign : String
  utm_term : String
  utm_content : String
deriving DecidableEq, Repr

/-- `base_campos` (source lines 158-168). -/
def base_campos : List String :=
  ["lead_id", "dedup_key", "criado_em", "app_origin",
   "utm_source", "utm_medium", "utm_campaign", "utm_term", "utm_content"]

/-- `ordem = base_campos + list(PERGUNTAS.keys())` (source line 169).  Note:
    the source computes this list but never uses it afterwards; the actual
    column order of the written rows is the dict insertion order of
    `registro`, which places `dedup_key` last. -/
def ordem : List String := base_campos ++ chaves

/-- `lead.get(k, "")` on the session's lead dict, rendered as cell text. -/
def leadGet (lead : List (String × Valor)) (k : String) : String :=
  match lead.lookup k with
  | some v => renderValor v
  | none => ""

/-- The `registro` dict before `dedup_key` is added (source lines 171-181),
    in Python dict insertion order. -/
def registroOf (ctx : Ctx) (lead : List (String × Valor)) : List (String × String) :=
  [("lead_id", ctx.lead_id),
   ("criado_em", ctx.criado_em),
   ("app_origin", ctx.app_origin),
   ("utm_source", ctx.utm_source),
   ("utm_medium", ctx.utm_medium),
   ("utm_campaign", ctx.utm_campaign),
   ("utm_term", ctx.utm_term),
   ("utm_content", ctx.utm_content)]
  ++ chaves.map (fun k => (k, leadGet lead k))

/-- `registro["dedup_key"] = _gerar_dedup_key(registro)` (source line 183):
    dict insertion order appends the new key last. -/
def registroFull (ctx : Ctx) (lead : List (String × Valor)) : List (String × String) :=
  registroOf ctx lead ++ [("dedup_key", gerar_dedup_key (registroOf ctx lead))]

/-- The upsert against a loaded primary table (source lines 191-206). -/
def upsertXlsx (registro : List (String × String)) (atual : Table) : Table × String :=
  let key := lookupD registro "dedup_key" ""
  let dfCols := registro.map Prod.fst
  let dfRow := registro.map Prod.snd
  if atual.cols.contains "dedup_key" &&
     atual.rows.any (fun r => getCell atual.cols r "dedup_key" == key) then
    let idx := atual.rows.findIdx (fun r => getCell atual.cols r "dedup_key" == key)
    let (cols, rows) := applyUpdate idx registro atual.cols atual.rows
    (⟨cols, rows⟩, "updated")
  else
    (concatTables atual dfCols dfRow, "created")

/-- `salvar_lead` (source lines 148-212).  Writes are modelled as
    succeeding; a primary file that exists but cannot be loaded is
    `XlsxFile.corrupt`, and that load failure (any exception) takes the
    CSV fallback path instead of raising. -/
def salvar_lead (ctx : Ctx) (lead : List (String × Valor)) (fs : FileState) :
    FileState × Loc × String :=
  let registro := registroFull ctx lead
  let dfCols := registro.map Prod.fst
  let dfRow := registro.map Prod.snd
  match fs.xlsx with
  | .table atual =>
    let (t, status) := upsertXlsx registro atual
    (⟨.table t, fs.csv⟩, .xlsx, status)
  | .absent => (⟨.table ⟨dfCols, [dfRow]⟩, fs.csv⟩, .xlsx, "created")
  | .corrupt => (⟨.corrupt, appendCsv fs.csv dfCols dfRow⟩, .csv, "appended_csv")

/- ===== The funnel engine (`app`, source lines 291-397) ===== -/

/-- Per-session funnel state: the collected answers (a Python dict, so
    insertion-ordered) and the current step. -/
structure SessionState where
  lead : List (String × Valor)
  step : Nat
deriving DecidableEq, Repr

/-- What one submission produces for the user, beyond the state change. -/
inductive Outcome where
  | accepted (nextPrompt : String)
  | rejected (errorMsg : String) (rePrompt : String)
  | finalized (loc : Loc) (status : String)
  | followupAck
deriving DecidableEq, Repr

/-- Python dict assignment `d[k] = v`: replace in place, else append. -/
def dictSet : List (String × Valor) → String → Valor → List (String × Valor)
  | [], k, v => [(k, v)]
  | (k', v') :: t, k, v =>
    if k' = k then (k, v) :: t else (k', v') :: dictSet t k v

/-- One user submission (source lines 358-395 together with
    `perguntar_proximo_campo`, lines 249-288). -/
def submit (ctx : Ctx) (st : SessionState) (fs : FileState) (msg : String) :
    SessionState × FileState × Outcome :=
  if h : st.step < chaves.length then
    let chave := chaves.get ⟨st.step, h⟩
    if validadorFor chave msg then
      let lead' := dictSet st.lead chave (normalizar_campo chave msg)
      if h' : st.step + 1 < chaves.length then
        (⟨lead', st.step + 1⟩, fs, .accepted (perguntaDe (chaves.get ⟨st.step + 1, h'⟩)))
      else
        let (fs', loc, status) := salvar_lead ctx lead' fs
        (⟨lead', st.step + 1⟩, fs', .finalized loc status)
    else
      (st, fs, .rejected (erroDe chave) (perguntaDe chave))
  else
    (st, fs, .followupAck)

/-- Submitting a list of answers in order, starting from a fresh session. -/
def executar (ctx : Ctx) (fs0 : FileState) (msgs : List String) :
    SessionState × FileState × Outcome :=
  msgs.foldl (fun acc msg => submit ctx acc.1 acc.2.1 msg)
    (⟨[], 0⟩, fs0, .accepted (perguntaDe "nome"))

/-- The columns of the loaded primary table, if any. -/
def xlsxCols : XlsxFile → List String
  | .table t => t.cols
  | _ => []

/-- The raw lines of the secondary store. -/
def csvLines : CsvFile → List (List String)
  | .absent => []
  | .file lines => lines

/-- The column order the rows written by `salvar_lead` actually have:
    metadata first, then the nine funnel fields, then `dedup_key` last
    (dict insertion order of `registro`; the source's `ordem` list is
    never applied). -/
def colunas_reais : List String :=
  ["lead_id", "criado_em", "app_origin", "utm_source", "utm_medium",
   "utm_campaign", "utm_term", "utm_content"] ++ chaves ++ ["dedup_key"]

/- ===== Concrete sample data used by witnesses and counterexamples ===== -/

def ctx0 : Ctx := ⟨"lead-1", "2026-10-12T00:00:00", "", "", "", "", "", ""⟩

def respostas_ana : List String :=
  ["Ana Silva", "11987654321", "ana@example.com", "1", "apartamento", "80", "2",
   "até 500 mil", "alta"]

def lead_ana : List (String × Valor) :=
  [("nome", .str "Ana Silva"), ("telefone", .str "11987654321"),
   ("email", .str "ana@example.com"), ("operacao", .str "compra"),
   ("tipo_imovel", .str "apartamento"), ("metragem", .int 80),
   ("quartos", .int 2), ("faixa_preco", .str "até 500 mil"),
   ("urgencia", .str "alta")]


def leadA : List (String × String) :=
  [("nome", "Ana Silva"), ("telefone", "(11) 98765-4321"), ("email", "ana@example.com")]

def leadB : List (String × String) :=
  [("telefone", "11987654321"), ("email", "ana@example.com"), ("urgencia", "alta")]

def leadC : List (String × String) := [("telefone", "123"), ("email", "a@b.c")]

def leadD : List (String × String) := [("telefone", "456"), ("email", "a@b.c")]

def leadE : List (String × String) :=
  [("telefone", "11987654321"), ("email", "ana@example.com")]

def leadF : List (String × String) :=
  [("telefone", "21987654321"), ("email", "ana@example.com")]

def lead1 : List (String × Valor) :=
  [("telefone", .str "11987654321"), ("email", .str "ana@example.com")]

/-- A well-formed primary table already holding one row for `lead1`'s key
    (the hex literal is `sha256("11987654321|ana@example.com")`). -/
def tabela1 : Table :=
  ⟨["dedup_key", "nome"],
   [["61979239b3d55e9d0e7a3838c765482d4759098b1f66a726e7802b13206cf239", "Velho"]]⟩

/-- A table already violating the at-most-one-row-per-key invariant:
    two rows with `lead1`'s dedup key. -/
def tabela2 : Table :=
  ⟨["dedup_key"],
   [["61979239b3d55e9d0e7a3838c765482d4759098b1f66a726e7802b13206cf239"],
    ["61979239b3d55e9d0e7a3838c765482d4759098b1f66a726e7802b13206cf239"]]⟩

/- ===== Lemmas: character and string primitives ===== -/

theorem isDigitChar_not_space {c : Char} (h : isDigitChar c = true) :
    isSpaceChar c = false := by
  simp only [isDigitChar, Bool.and_eq_true, decide_eq_true_eq] at h
  simp only [isSpaceChar, Bool.or_eq_false_iff, decide_eq_false_iff_not]
  omega

theorem stripList_eq (l : List Char) :
    stripList l = List.rdropWhile isSpaceChar (l.dropWhile isSpaceChar) := rfl

theorem stripList_idem (l : List Char) : stripList (stripList l) = stripList l := by
  rw [stripList_eq, stripList_eq]
  have hm2 : (l.dropWhile isSpaceChar).dropWhile isSpaceChar = l.dropWhile isSpaceChar :=
    List.dropWhile_idempotent _ _
  have h1 : (List.rdropWhile isSpaceChar (l.dropWhile isSpaceChar)).dropWhile isSpaceChar
      = List.rdropWhile isSpaceChar (l.dropWhile isSpaceChar) := by
    rw [List.dropWhile_eq_self_iff]
    intro hl
    have hpre := List.rdropWhile_prefix isSpaceChar (l.dropWhile isSpaceChar)
    rw [hpre.get_eq hl]
    exact List.dropWhile_eq_self_iff.mp hm2 (lt_of_lt_of_le hl hpre.length_le)
  rw [h1, List.rdropWhile_idempotent]

theorem stripList_of_all {l : List Char} (h : ∀ c ∈ l, isSpaceChar c = false) :
    stripList l = l := by
  rw [stripList_eq]
  have h1 : l.dropWhile isSpaceChar = l := by
    rw [List.dropWhile_eq_self_iff]
    intro hl
    simp only [List.get_eq_getElem]
    simp [h _ (List.getElem_mem hl)]
  rw [h1, List.rdropWhile_eq_self_iff]
  intro hl
  simp [h _ (l.getLast_mem hl)]

theorem pyStrip_data (s : String) : (pyStrip s).data = stripList s.data := rfl

theorem pyStrip_idem (s : String) : pyStrip (pyStrip s) = pyStrip s :=
  congrArg (fun l => (⟨l⟩ : String)) (stripList_idem s.data)

theorem pyStrip_of_all {s : String} (h : ∀ c ∈ s.data, isSpaceChar c = false) :
    pyStrip s = s := by
  show (⟨stripList s.data⟩ : String) = s
  rw [stripList_of_all h]

/- ===== Lemmas: decimal rendering round-trips with parsing ===== -/

theorem natReprAux_zero (f : Nat) : natReprAux f 0 = [] := by
  cases f <;> simp [natReprAux]

theorem natReprAux_fuel : ∀ f₁ f₂ n : Nat, n ≤ f₁ → n ≤ f₂ →
    natReprAux f₁ n = natReprAux f₂ n := by
  intro f₁
  induction f₁ with
  | zero =>
    intro f₂ n h₁ _
    interval_cases n
    simp [natReprAux_zero]
  | succ f ih =>
    intro f₂ n h₁ h₂
    by_cases hn : n = 0
    · simp [hn, natReprAux_zero]
    · obtain ⟨f₂', rfl⟩ : ∃ k, f₂ = k + 1 := by
        cases f₂ with
        | zero => omega
        | succ k => exact ⟨k, rfl⟩
      have hdiv : n / 10 < n := Nat.div_lt_self (by omega) (by omega)
      simp only [natReprAux, hn, if_false]
      rw [ih f₂' (n / 10) (by omega) (by omega)]

theorem digitChar_toNat {d : Nat} (h : d < 10) : (digitChar d).toNat = 48 + d := by
  interval_cases d <;> decide

theorem isDigitChar_digitChar {d : Nat} (h : d < 10) : isDigitChar (digitChar d) = true := by
  interval_cases d <;> decide

theorem pyInt_append (l : List Char) (c : Char) :
    pyInt (l ++ [c]) = pyInt l * 10 + (c.toNat - 48) := by
  simp [pyInt, List.foldl_append]

theorem pyInt_natReprAux : ∀ f n : Nat, 0 < n → n ≤ f →
    pyInt (natReprAux f n) = n ∧ natReprAux f n ≠ [] ∧
    ∀ c ∈ natReprAux f n, isDigitChar c = true := by
  intro f
  induction f with
  | zero => intro n h₁ h₂; omega
  | succ f ih =>
    intro n h₁ h₂
    have hn : ¬n = 0 := by omega
    simp only [natReprAux, hn, if_false]
    have hmod : n % 10 < 10 := Nat.mod_lt _ (by omega)
    by_cases h10 : n / 10 = 0
    · have hlt : n < 10 := by omega
      rw [h10, natReprAux_zero]
      refine ⟨?_, by simp, ?_⟩
      · simp [pyInt, digitChar_toNat hmod]
        omega
      · intro c hc
        simp only [List.nil_append, List.mem_singleton] at hc
        rw [hc]
        exact isDigitChar_digitChar hmod
    · have hdiv : n / 10 < n := Nat.div_lt_self (by omega) (by omega)
      obtain ⟨ihp, ihne, ihd⟩ := ih (n / 10) (by omega) (by omega)
      refine ⟨?_, by simp, ?_⟩
      · rw [pyInt_append, ihp, digitChar_toNat hmod]
        omega
      · intro c hc
        rcases List.mem_append.mp hc with hc | hc
        · exact ihd c hc
        · rw [List.mem_singleton.mp hc]
          exact isDigitChar_digitChar hmod

theorem natRepr_data {n : Nat} (h : n ≠ 0) : (natRepr n).data = natReprAux n n := by
  simp [natRepr, h]

theorem pyInt_natRepr (n : Nat) : pyInt (natRepr n).data = n := by
  by_cases h : n = 0
  · subst h; decide
  · rw [natRepr_data h]
    exact (pyInt_natReprAux n n (by omega) (Nat.le_refl n)).1

theorem natRepr_all_digits (n : Nat) : ∀ c ∈ (natRepr n).data, isDigitChar c = true := by
  by_cases h : n = 0
  · subst h; decide
  · rw [natRepr_data h]
    exact (pyInt_natReprAux n n (by omega) (Nat.le_refl n)).2.2

theorem pyIsDigit_natRepr (n : Nat) : pyIsDigit (natRepr n) = true := by
  by_cases h : n = 0
  · subst h; decide
  · have hne : (natRepr n).data ≠ [] := by
      rw [natRepr_data h]
      exact (pyInt_natReprAux n n (by omega) (Nat.le_refl n)).2.1
    have h2 := natRepr_all_digits n
    simp only [pyIsDigit, Bool.and_eq_true, List.all_eq_true]
    refine ⟨?_, h2⟩
    simp [List.isEmpty_iff, hne]

theorem pyStrip_natRepr (n : Nat) : pyStrip (natRepr n) = natRepr n :=
  pyStrip_of_all (fun c hc => isDigitChar_not_space (natRepr_all_digits n c hc))

/- ===== Lemmas: `normalizar_campo` specialised to each field ===== -/

theorem normalizar_nome (v : String) :
    normalizar_campo "nome" v = .str (pyStrip v) := rfl

theorem normalizar_telefone (v : String) :
    normalizar_campo "telefone" v = .str (pyStrip v) := rfl

theorem normalizar_email (v : String) :
    normalizar_campo "email" v = .str (pyStrip v) := rfl

theorem normalizar_faixa (v : String) :
    normalizar_campo "faixa_preco" v = .str (pyStrip v) := rfl

theorem normalizar_tipo (v : String) :
    normalizar_campo "tipo_imovel" v = .str (pyLower (pyStrip v)) := rfl

theorem normalizar_urg (v : String) :
    normalizar_campo "urgencia" v = .str (pyLower (pyStrip v)) := rfl

theorem normalizar_op (v : String) :
    normalizar_campo "operacao" v
      = .str (if pyStrip v = "1" then "compra" else "aluguel") := rfl

theorem normalizar_num (chave : String) (hc : chave = "metragem" ∨ chave = "quartos")
    (v : String) :
    normalizar_campo chave v =
      if pyIsDigit (pyStrip v) = true then .int (pyInt (pyStrip v).data)
      else .str (pyStrip v) := by
  rcases hc with rfl | rfl <;>
    by_cases h : pyIsDigit (pyStrip v) = true <;>
    simp [normalizar_campo, h]

/-- Fields whose raw value the validator forces to be whitespace-free are
    left unchanged by `str.strip`. -/
theorem renderValor_str (s : String) : renderValor (.str s) = s := rfl

theorem renderValor_int (n : Nat) : renderValor (.int n) = natRepr n := rfl

theorem pyStrip_of_telefone {v : String} (hv : validar_telefone v = true) :
    pyStrip v = v := by
  simp only [validar_telefone, Bool.and_eq_true, List.all_eq_true] at hv
  exact pyStrip_of_all (fun c hc => isDigitChar_not_space (hv.2 c hc))

theorem pyStrip_of_email {v : String} (hv : validar_email v = true) :
    pyStrip v = v := by
  simp only [validar_email, Bool.and_eq_true, List.all_eq_true] at hv
  refine pyStrip_of_all (fun c hc => ?_)
  have := hv.1.1.2 c hc
  simpa using this

theorem pyStrip_of_numero {v : String} (hv : validar_numero v = true) :
    pyStrip v = v := by
  simp only [validar_numero, pyIsDigit, Bool.and_eq_true, List.all_eq_true] at hv
  exact pyStrip_of_all (fun c hc => isDigitChar_not_space (hv.2 c hc))

/- ===== C4 ===== -/

/-- C4 (amended): for every field key in the funnel other than `operacao`,
    normalization is idempotent on validator-accepted raw values: applying
    the field's normalizer to the (rendered) already-normalized value yields
    the same value, and the normalized value still passes the field's
    validator.  (For `operacao` the claim fails, see the counterexample.) -/
theorem spec_c4_amended :
    ∀ chave ∈ chaves, chave ≠ "operacao" → ∀ v : String,
      validadorFor chave v = true →
      normalizar_campo chave (renderValor (normalizar_campo chave v))
          = normalizar_campo chave v ∧
      validadorFor chave (renderValor (normalizar_campo chave v)) = true := by
  intro chave hmem hop v hv
  simp only [chaves, PERGUNTAS, List.map_cons, List.map_nil, List.mem_cons,
    List.not_mem_nil, or_false] at hmem
  rcases hmem with rfl | rfl | rfl | rfl | rfl | rfl | rfl | rfl | rfl
  · -- nome
    simp only [normalizar_nome, renderValor_str]
    refine ⟨by rw [pyStrip_idem], ?_⟩
    show validar_nome (pyStrip v) = true
    replace hv : validar_nome v = true := hv
    simp only [validar_nome, decide_eq_true_eq] at hv ⊢
    rwa [pyStrip_data, stripList_idem]
  · -- telefone
    have hs : pyStrip v = v := pyStrip_of_telefone hv
    simp only [normalizar_telefone, renderValor_str]
    exact ⟨by rw [pyStrip_idem], by rw [hs]; exact hv⟩
  · -- email
    have hs : pyStrip v = v := pyStrip_of_email hv
    simp only [normalizar_email, renderValor_str]
    exact ⟨by rw [pyStrip_idem], by rw [hs]; exact hv⟩
  · -- operacao: excluded
    exact absurd rfl hop
  · -- tipo_imovel
    replace hv : validar_tipo_imovel v = true := hv
    simp only [validar_tipo_imovel, Bool.or_eq_true, beq_iff_eq] at hv
    simp only [normalizar_tipo, renderValor_str]
    rcases hv with (h | h) | h <;> rw [h] <;> exact ⟨by decide, by decide⟩
  · -- metragem
    have hs : pyStrip v = v := pyStrip_of_numero hv
    replace hv : pyIsDigit v = true := hv
    rw [normalizar_num "metragem" (Or.inl rfl) v, hs, if_pos hv, renderValor_int]
    constructor
    · rw [normalizar_num "metragem" (Or.inl rfl) _, pyStrip_natRepr,
        if_pos (pyIsDigit_natRepr _), pyInt_natRepr]
    · exact pyIsDigit_natRepr _
  · -- quartos
    have hs : pyStrip v = v := pyStrip_of_numero hv
    replace hv : pyIsDigit v = true := hv
    rw [normalizar_num "quartos" (Or.inr rfl) v, hs, if_pos hv, renderValor_int]
    constructor
    · rw [normalizar_num "quartos" (Or.inr rfl) _, pyStrip_natRepr,
        if_pos (pyIsDigit_natRepr _), pyInt_natRepr]
    · exact pyIsDigit_natRepr _
  · -- faixa_preco
    simp only [normalizar_faixa, renderValor_str]
    exact ⟨by rw [pyStrip_idem], rfl⟩
  · -- urgencia
    replace hv : validar_urgencia v = true := hv
    simp only [validar_urgencia, Bool.or_eq_true, beq_iff_eq] at hv
    simp only [normalizar_urg, renderValor_str]
    rcases hv with (h | h) | h <;> rw [h] <;> exact ⟨by decide, by decide⟩

/-- C4 counterexample: the `operacao` normalizer is not idempotent.  Raw
    `"1"` is accepted and normalizes to `"compra"`, but `"compra"` fails the
    `operacao` validator, and re-normalizing it yields `"aluguel"`, not
    `"compra"`. -/
theorem spec_c4_counterexample :
    validadorFor "operacao" "1" = true ∧
    normalizar_campo "operacao" "1" = .str "compra" ∧
    validadorFor "operacao" (renderValor (normalizar_campo "operacao" "1")) = false ∧
    normalizar_campo "operacao" (renderValor (normalizar_campo "operacao" "1"))
      ≠ normalizar_campo "operacao" "1" := by
  decide

/-- C4 witness: the amended theorem applied at `tipo_imovel` with raw
    `" Apartamento "`. -/
theorem spec_c4_witness :
    ("tipo_imovel" ∈ chaves) ∧ ("tipo_imovel" : String) ≠ "operacao" ∧
    validadorFor "tipo_imovel" " Apartamento " = true ∧
    (normalizar_campo "tipo_imovel"
        (renderValor (normalizar_campo "tipo_imovel" " Apartamento "))
        = normalizar_campo "tipo_imovel" " Apartamento " ∧
     validadorFor "tipo_imovel"
        (renderValor (normalizar_campo "tipo_imovel" " Apartamento ")) = true) :=
  ⟨by decide, by decide, by decide,
    spec_c4_amended "tipo_imovel" (by decide) (by decide) " Apartamento " (by decide)⟩

/- ===== C6 ===== -/

/-- C6: the dedup key generator is a pure function of the canonicalized
    (digits-only phone, trimmed-lowercased email) pair: two leads agreeing
    on those canonical forms — however each field was formatted, and
    whatever their other fields are — get the identical key. -/
theorem spec_c6 (l₁ l₂ : List (String × String))
    (htel : (lookupD l₁ "telefone" "").data.filter isDigitChar
          = (lookupD l₂ "telefone" "").data.filter isDigitChar)
    (hemail : pyLower (pyStrip (lookupD l₁ "email" ""))
            = pyLower (pyStrip (lookupD l₂ "email" ""))) :
    gerar_dedup_key l₁ = gerar_dedup_key l₂ := by
  unfold gerar_dedup_key dedupBase canonTelefone canonEmail
  rw [htel, hemail]



/-- C6 witness: the spec's example — a formatted and an unformatted phone
    with the same digits and email (and different other fields) get the same
    key. -/
theorem spec_c6_witness :
    (lookupD leadA "telefone" "").data.filter isDigitChar
      = (lookupD leadB "telefone" "").data.filter isDigitChar ∧
    pyLower (pyStrip (lookupD leadA "email" ""))
      = pyLower (pyStrip (lookupD leadB "email" "")) ∧
    gerar_dedup_key leadA = gerar_dedup_key leadB :=
  ⟨by decide, by decide, spec_c6 leadA leadB (by decide) (by decide)⟩

/- ===== C7 ===== -/


/-- C7 counterexample: two leads whose digits-only phones differ (`"123"` vs
    `"456"`) but which share the email produce the *same* key: the source
    blanks any phone that is not exactly 11 digits long before hashing, so
    distinct digits-only pairs can map to the same pre-hash input. -/
theorem spec_c7_counterexample :
    (lookupD leadC "telefone" "").data.filter isDigitChar
      ≠ (lookupD leadD "telefone" "").data.filter isDigitChar ∧
    canonEmail leadC = canonEmail leadD ∧
    gerar_dedup_key leadC = gerar_dedup_key leadD :=
  ⟨by decide, by decide,
    congrArg sha256hex (show dedupBase leadC = dedupBase leadD by decide)⟩

theorem append_sep_inj {sep : Char} :
    ∀ {a₁ a₂ b₁ b₂ : List Char}, a₁ ++ sep :: b₁ = a₂ ++ sep :: b₂ →
      sep ∉ a₁ → sep ∉ a₂ → a₁ = a₂ ∧ b₁ = b₂ := by
  intro a₁
  induction a₁ with
  | nil =>
    intro a₂ b₁ b₂ h h₁ h₂
    cases a₂ with
    | nil => simpa using h
    | cons c t =>
      simp only [List.nil_append, List.cons_append, List.cons.injEq] at h
      exact absurd (h.1 ▸ List.mem_cons_self c t) (h.1 ▸ h₂)
  | cons c t ih =>
    intro a₂ b₁ b₂ h h₁ h₂
    cases a₂ with
    | nil =>
      simp only [List.cons_append, List.nil_append, List.cons.injEq] at h
      exact absurd (h.1 ▸ List.mem_cons_self c t) (fun hm => h₁ (h.1 ▸ hm))
    | cons c' t' =>
      simp only [List.cons_append, List.cons.injEq] at h
      obtain ⟨rfl, h⟩ := h
      have := ih h (fun hm => h₁ (List.mem_cons_of_mem _ hm))
        (fun hm => h₂ (List.mem_cons_of_mem _ hm))
      exact ⟨by rw [this.1], this.2⟩

theorem canonTelefone_no_bar (l : List (String × String)) :
    '|' ∉ (canonTelefone l).data := by
  intro hmem
  have hmem' : '|' ∈ (if ((lookupD l "telefone" "").data.filter isDigitChar).length = 11
      then (⟨(lookupD l "telefone" "").data.filter isDigitChar⟩ : String)
      else "").data := hmem
  split at hmem'
  · have := List.of_mem_filter hmem'
    simp [isDigitChar] at this
  · simp at hmem'

/-- C7 (amended): the canonical phone is the digits-only phone *gated to
    exactly 11 digits* (anything else canonicalizes to the empty string);
    for every two leads whose canonical (gated phone, trimmed-lowercased
    email) pairs differ, the pre-hash input strings differ — no two distinct
    canonical pairs map to the same pre-hash input. -/
theorem spec_c7_amended (l₁ l₂ : List (String × String))
    (h : canonTelefone l₁ ≠ canonTelefone l₂ ∨ canonEmail l₁ ≠ canonEmail l₂) :
    dedupBase l₁ ≠ dedupBase l₂ := by
  intro heq
  have hdata : (canonTelefone l₁).data ++ '|' :: (canonEmail l₁).data
             = (canonTelefone l₂).data ++ '|' :: (canonEmail l₂).data :=
    congrArg String.data heq
  obtain ⟨ht, he⟩ :=
    append_sep_inj hdata (canonTelefone_no_bar l₁) (canonTelefone_no_bar l₂)
  rcases h with h | h
  · exact h (congrArg String.mk ht)
  · exact h (congrArg String.mk he)



/-- C7 witness: two distinct 11-digit phones with the same email give
    distinct pre-hash inputs. -/
theorem spec_c7_witness :
    (canonTelefone leadE ≠ canonTelefone leadF ∨ canonEmail leadE ≠ canonEmail leadF) ∧
    dedupBase leadE ≠ dedupBase leadF :=
  ⟨Or.inl (by decide), spec_c7_amended leadE leadF (Or.inl (by decide))⟩

/- ===== C9 ===== -/

/-- C9 counterexample: a field key with no registered validator is treated
    as always-valid, but the stored value is *not* the raw value: the
    default branch of `normalizar_campo` still strips surrounding
    whitespace (`" sim "` is stored as `"sim"`). -/
theorem spec_c9_counterexample :
    validadorFor "bairro" " sim " = true ∧
    normalizar_campo "bairro" " sim " ≠ .str " sim " := by
  constructor
  · rfl
  · decide

/-- C9 (amended): for every field key with no registered validator, every
    raw submission is treated as valid (so the funnel would advance rather
    than deadlock), and the stored value is the whitespace-trimmed raw value
    (the default normalizer branch applies `str.strip`, nothing else). -/
theorem spec_c9_amended (chave : String)
    (h : VALIDADORES.lookup chave = none) (raw : String) :
    validadorFor chave raw = true ∧
    normalizar_campo chave raw = .str (pyStrip raw) := by
  have h1 : chave ≠ "metragem" := by
    rintro rfl; simp [VALIDADORES, List.lookup] at h
  have h2 : chave ≠ "quartos" := by
    rintro rfl; simp [VALIDADORES, List.lookup] at h
  have h3 : chave ≠ "tipo_imovel" := by
    rintro rfl; simp [VALIDADORES, List.lookup] at h
  have h4 : chave ≠ "urgencia" := by
    rintro rfl; simp [VALIDADORES, List.lookup] at h
  have h5 : chave ≠ "operacao" := by
    rintro rfl; simp [VALIDADORES, List.lookup] at h
  constructor
  · rw [validadorFor, h]
  · simp [normalizar_campo, h1, h2, h3, h4, h5]

/-- C9 witness: the amended theorem at key `"bairro"` and raw `" sim "`. -/
theorem spec_c9_witness :
    VALIDADORES.lookup "bairro" = none ∧
    (validadorFor "bairro" " sim " = true ∧
     normalizar_campo "bairro" " sim " = .str (pyStrip " sim ")) :=
  ⟨rfl, spec_c9_amended "bairro" rfl " sim "⟩

/- ===== C8 ===== -/

/-- C8: a submission that the current field's validator rejects leaves the
    whole session state (the `answers`/`lead` dict and `currentStep`) and the
    stores unchanged, producing only the field's error message and the
    re-issued canonical prompt. -/
theorem spec_c8 (ctx : Ctx) (st : SessionState) (fs : FileState) (msg : String)
    (h : st.step < chaves.length)
    (hv : validadorFor (chaves.get ⟨st.step, h⟩) msg = false) :
    submit ctx st fs msg
      = (st, fs, .rejected (erroDe (chaves.get ⟨st.step, h⟩))
          (perguntaDe (chaves.get ⟨st.step, h⟩))) := by
  unfold submit
  rw [dif_pos h]
  simp only [List.get_eq_getElem] at hv
  simp [hv]

/-- C8 witness: rejecting a one-word name on step 0 changes nothing. -/
theorem spec_c8_witness :
    ((⟨[], 0⟩ : SessionState).step < chaves.length) ∧
    validadorFor (chaves.get ⟨0, by decide⟩) "Ana" = false ∧
    submit ctx0 ⟨[], 0⟩ ⟨.absent, .absent⟩ "Ana"
      = (⟨[], 0⟩, ⟨.absent, .absent⟩,
         .rejected (erroDe "nome") (perguntaDe "nome")) :=
  ⟨by decide, by decide,
    spec_c8 ctx0 ⟨[], 0⟩ ⟨.absent, .absent⟩ "Ana" (by decide) (by decide)⟩

/- ===== C1 ===== -/

/-- C1: submitting the nine answers `"Ana Silva"`, `"11987654321"`,
    `"ana@example.com"`, `"1"`, `"apartamento"`, `"80"`, `"2"`,
    `"até 500 mil"`, `"alta"` in order through a fresh session whose primary
    store is absent ends, on the ninth submission, in a `finalized` outcome
    with store status `"created"` and the assembled lead record
    `{nome: "Ana Silva", telefone: "11987654321", email: "ana@example.com",
      operacao: "compra", tipo_imovel: "apartamento", metragem: 80,
      quartos: 2, faixa_preco: "até 500 mil", urgencia: "alta"}`. -/
theorem submit_accept (ctx : Ctx) (st : SessionState) (fs : FileState) (msg : String)
    (h : st.step < chaves.length)
    (hv : validadorFor (chaves.get ⟨st.step, h⟩) msg = true)
    (h' : st.step + 1 < chaves.length) :
    submit ctx st fs msg
      = (⟨dictSet st.lead (chaves.get ⟨st.step, h⟩)
            (normalizar_campo (chaves.get ⟨st.step, h⟩) msg), st.step + 1⟩, fs,
         .accepted (perguntaDe (chaves.get ⟨st.step + 1, h'⟩))) := by
  unfold submit
  rw [dif_pos h]
  simp only [List.get_eq_getElem] at hv ⊢
  rw [if_pos hv, dif_pos h']

theorem submit_final (ctx : Ctx) (st : SessionState) (fs : FileState) (msg : String)
    (h : st.step < chaves.length)
    (hv : validadorFor (chaves.get ⟨st.step, h⟩) msg = true)
    (h9 : ¬(st.step + 1 < chaves.length)) :
    submit ctx st fs msg
      = (⟨dictSet st.lead (chaves.get ⟨st.step, h⟩)
            (normalizar_campo (chaves.get ⟨st.step, h⟩) msg), st.step + 1⟩,
         (salvar_lead ctx (dictSet st.lead (chaves.get ⟨st.step, h⟩)
            (normalizar_campo (chaves.get ⟨st.step, h⟩) msg)) fs).1,
         .finalized
           (salvar_lead ctx (dictSet st.lead (chaves.get ⟨st.step, h⟩)
              (normalizar_campo (chaves.get ⟨st.step, h⟩) msg)) fs).2.1
           (salvar_lead ctx (dictSet st.lead (chaves.get ⟨st.step, h⟩)
              (normalizar_campo (chaves.get ⟨st.step, h⟩) msg)) fs).2.2) := by
  unfold submit
  rw [dif_pos h]
  simp only [List.get_eq_getElem] at hv ⊢
  rw [if_pos hv, dif_neg h9]

theorem salvar_absent (ctx : Ctx) (lead : List (String × Valor)) (csv : CsvFile) :
    salvar_lead ctx lead ⟨.absent, csv⟩
      = (⟨.table ⟨(registroFull ctx lead).map Prod.fst,
                  [(registroFull ctx lead).map Prod.snd]⟩, csv⟩,
         .xlsx, "created") := rfl

theorem spec_c1 (ctx : Ctx) (csv : CsvFile) :
    (executar ctx ⟨.absent, csv⟩ respostas_ana).2.2 = .finalized .xlsx "created" ∧
    (executar ctx ⟨.absent, csv⟩ respostas_ana).1.lead = lead_ana ∧
    (executar ctx ⟨.absent, csv⟩ respostas_ana).1.step = 9 := by
  have e1 : submit ctx ⟨[], 0⟩ ⟨.absent, csv⟩ "Ana Silva"
      = (⟨[("nome", .str "Ana Silva")], 1⟩, ⟨.absent, csv⟩,
         .accepted (perguntaDe "telefone")) := by
    rw [submit_accept ctx ⟨[], 0⟩ ⟨.absent, csv⟩ "Ana Silva"
      (by decide) (by decide) (by decide)]
    exact congrArg₂ Prod.mk (by decide) (congrArg₂ Prod.mk rfl (by decide))
  have e2 : submit ctx ⟨[("nome", .str "Ana Silva")], 1⟩ ⟨.absent, csv⟩ "11987654321"
      = (⟨[("nome", .str "Ana Silva"), ("telefone", .str "11987654321")], 2⟩,
         ⟨.absent, csv⟩, .accepted (perguntaDe "email")) := by
    rw [submit_accept ctx ⟨[("nome", .str "Ana Silva")], 1⟩ ⟨.absent, csv⟩
      "11987654321" (by decide) (by decide) (by decide)]
    exact congrArg₂ Prod.mk (by decide) (congrArg₂ Prod.mk rfl (by decide))
  have e3 : submit ctx
        ⟨[("nome", .str "Ana Silva"), ("telefone", .str "11987654321")], 2⟩
        ⟨.absent, csv⟩ "ana@example.com"
      = (⟨[("nome", .str "Ana Silva"), ("telefone", .str "11987654321"),
           ("email", .str "ana@example.com")], 3⟩,
         ⟨.absent, csv⟩, .accepted (perguntaDe "operacao")) := by
    rw [submit_accept ctx
      ⟨[("nome", .str "Ana Silva"), ("telefone", .str "11987654321")], 2⟩
      ⟨.absent, csv⟩ "ana@example.com" (by decide) (by decide) (by decide)]
    exact congrArg₂ Prod.mk (by decide) (congrArg₂ Prod.mk rfl (by decide))
  have e4 : submit ctx
        ⟨[("nome", .str "Ana Silva"), ("telefone", .str "11987654321"),
          ("email", .str "ana@example.com")], 3⟩
        ⟨.absent, csv⟩ "1"
      = (⟨[("nome", .str "Ana Silva"), ("telefone", .str "11987654321"),
           ("email", .str "ana@example.com"), ("operacao", .str "compra")], 4⟩,
         ⟨.absent, csv⟩, .accepted (perguntaDe "tipo_imovel")) := by
    rw [submit_accept ctx
      ⟨[("nome", .str "Ana Silva"), ("telefone", .str "11987654321"),
        ("email", .str "ana@example.com")], 3⟩
      ⟨.absent, csv⟩ "1" (by decide) (by decide) (by decide)]
    exact congrArg₂ Prod.mk (by decide) (congrArg₂ Prod.mk rfl (by decide))
  have e5 : submit ctx
        ⟨[("nome", .str "Ana Silva"), ("telefone", .str "11987654321"),
          ("email", .str "ana@example.com"), ("operacao", .str "compra")], 4⟩
        ⟨.absent, csv⟩ "apartamento"
      = (⟨[("nome", .str "Ana Silva"), ("telefone", .str "11987654321"),
           ("email", .str "ana@example.com"), ("operacao", .str "compra"),
           ("tipo_imovel", .str "apartamento")], 5⟩,
         ⟨.absent, csv⟩, .accepted (perguntaDe "metragem")) := by
    rw [submit_accept ctx
      ⟨[("nome", .str "Ana Silva"), ("telefone", .str "11987654321"),
        ("email", .str "ana@example.com"), ("operacao", .str "compra")], 4⟩
      ⟨.absent, csv⟩ "apartamento" (by decide) (by decide) (by decide)]
    exact congrArg₂ Prod.mk (by decide) (congrArg₂ Prod.mk rfl (by decide))
  have e6 : submit ctx
        ⟨[("nome", .str "Ana Silva"), ("telefone", .str "11987654321"),
          ("email", .str "ana@example.com"), ("operacao", .str "compra"),
          ("tipo_imovel", .str "apartamento")], 5⟩
        ⟨.absent, csv⟩ "80"
      = (⟨[("nome", .str "Ana Silva"), ("telefone", .str "11987654321"),
           ("email", .str "ana@example.com"), ("operacao", .str "compra"),
           ("tipo_imovel", .str "apartamento"), ("metragem", .int 80)], 6⟩,
         ⟨.absent, csv⟩, .accepted (perguntaDe "quartos")) := by
    rw [submit_accept ctx
      ⟨[("nome", .str "Ana Silva"), ("telefone", .str "11987654321"),
        ("email", .str "ana@example.com"), ("operacao", .str "compra"),
        ("tipo_imovel", .str "apartamento")], 5⟩
      ⟨.absent, csv⟩ "80" (by decide) (by decide) (by decide)]
    exact congrArg₂ Prod.mk (by decide) (congrArg₂ Prod.mk rfl (by decide))
  have e7 : submit ctx
        ⟨[("nome", .str "Ana Silva"), ("telefone", .str "11987654321"),
          ("email", .str "ana@example.com"), ("operacao", .str "compra"),
          ("tipo_imovel", .str "apartamento"), ("metragem", .int 80)], 6⟩
        ⟨.absent, csv⟩ "2"
      = (⟨[("nome", .str "Ana Silva"), ("telefone", .str "11987654321"),
           ("email", .str "ana@example.com"), ("operacao", .str "compra"),
           ("tipo_imovel", .str "apartamento"), ("metragem", .int 80),
           ("quartos", .int 2)], 7⟩,
         ⟨.absent, csv⟩, .accepted (perguntaDe "faixa_preco")) := by
    rw [submit_accept ctx
      ⟨[("nome", .str "Ana Silva"), ("telefone", .str "11987654321"),
        ("email", .str "ana@example.com"), ("operacao", .str "compra"),
        ("tipo_imovel", .str "apartamento"), ("metragem", .int 80)], 6⟩
      ⟨.absent, csv⟩ "2" (by decide) (by decide) (by decide)]
    exact congrArg₂ Prod.mk (by decide) (congrArg₂ Prod.mk rfl (by decide))
  have e8 : submit ctx
        ⟨[("nome", .str "Ana Silva"), ("telefone", .str "11987654321"),
          ("email", .str "ana@example.com"), ("operacao", .str "compra"),
          ("tipo_imovel", .str "apartamento"), ("metragem", .int 80),
          ("quartos", .int 2)], 7⟩
        ⟨.absent, csv⟩ "até 500 mil"
      = (⟨[("nome", .str "Ana Silva"), ("telefone", .str "11987654321"),
           ("email", .str "ana@example.com"), ("operacao", .str "compra"),
           ("tipo_imovel", .str "apartamento"), ("metragem", .int 80),
           ("quartos", .int 2), ("faixa_preco", .str "até 500 mil")], 8⟩,
         ⟨.absent, csv⟩, .accepted (perguntaDe "urgencia")) := by
    rw [submit_accept ctx
      ⟨[("nome", .str "Ana Silva"), ("telefone", .str "11987654321"),
        ("email", .str "ana@example.com"), ("operacao", .str "compra"),
        ("tipo_imovel", .str "apartamento"), ("metragem", .int 80),
        ("quartos", .int 2)], 7⟩
      ⟨.absent, csv⟩ "até 500 mil" (by decide) (by decide) (by decide)]
    exact congrArg₂ Prod.mk (by decide) (congrArg₂ Prod.mk rfl (by decide))
  unfold executar respostas_ana
  simp only [List.foldl_cons, List.foldl_nil, e1, e2, e3, e4, e5, e6, e7, e8]
  rw [submit_final ctx
    ⟨[("nome", .str "Ana Silva"), ("telefone", .str "11987654321"),
      ("email", .str "ana@example.com"), ("operacao", .str "compra"),
      ("tipo_imovel", .str "apartamento"), ("metragem", .int 80),
      ("quartos", .int 2), ("faixa_preco", .str "até 500 mil")], 8⟩
    ⟨.absent, csv⟩ "alta" (by decide) (by decide) (by decide)]
  rw [salvar_absent]
  exact ⟨rfl, rfl, rfl⟩

/- ===== C3 ===== -/

/-- C3: when the primary store exists but cannot be loaded, `salvar_lead`
    does not raise: it appends the entry row to the secondary CSV store
    (creating it with a header when absent) and returns the CSV location
    with status `"appended_csv"`; the written row is present in the
    resulting CSV, so the record is not lost. -/
theorem spec_c3 (ctx : Ctx) (lead : List (String × Valor)) (csv : CsvFile) :
    (salvar_lead ctx lead ⟨.corrupt, csv⟩).2.1 = .csv ∧
    (salvar_lead ctx lead ⟨.corrupt, csv⟩).2.2 = "appended_csv" ∧
    (salvar_lead ctx lead ⟨.corrupt, csv⟩).1.xlsx = .corrupt ∧
    (salvar_lead ctx lead ⟨.corrupt, csv⟩).1.csv
      = appendCsv csv ((registroFull ctx lead).map Prod.fst)
          ((registroFull ctx lead).map Prod.snd) ∧
    (registroFull ctx lead).map Prod.snd
      ∈ csvLines (salvar_lead ctx lead ⟨.corrupt, csv⟩).1.csv := by
  refine ⟨rfl, rfl, rfl, rfl, ?_⟩
  cases csv with
  | absent => simp [salvar_lead, appendCsv, csvLines]
  | file lines => simp [salvar_lead, appendCsv, csvLines]

/- ===== C5 ===== -/

/-- C5 counterexample: in the table actually written by an upsert to a fresh
    primary store, the `dedup_key` column does *not* precede the nine funnel
    field columns — it is the last column, after all of them (the source
    computes `ordem` with the dedup key among the leading metadata columns
    but never uses it; the written order is the dict insertion order). -/
theorem spec_c5_counterexample :
    xlsxCols (salvar_lead ctx0 lead_ana ⟨.absent, .absent⟩).1.xlsx = colunas_reais ∧
    ¬(List.indexOf "dedup_key"
        (xlsxCols (salvar_lead ctx0 lead_ana ⟨.absent, .absent⟩).1.xlsx)
      < List.indexOf "nome"
        (xlsxCols (salvar_lead ctx0 lead_ana ⟨.absent, .absent⟩).1.xlsx)) := by
  decide

/-- C5 (amended): every entry row `salvar_lead` writes has its columns in
    the fixed order: identifier, creation timestamp, origin, the five UTM
    fields, then the nine funnel field columns in funnel order, and the
    dedup key *last* (after, not before, the field columns): this is the
    column order of the entry frame, of the table created on the
    fresh-store path, and of the header of a freshly created fallback CSV. -/
theorem spec_c5_amended (ctx : Ctx) (lead : List (String × Valor)) (csv : CsvFile) :
    (registroFull ctx lead).map Prod.fst = colunas_reais ∧
    xlsxCols (salvar_lead ctx lead ⟨.absent, csv⟩).1.xlsx = colunas_reais ∧
    (salvar_lead ctx lead ⟨.corrupt, .absent⟩).1.csv
      = .file [colunas_reais, (registroFull ctx lead).map Prod.snd] :=
  ⟨rfl, rfl, rfl⟩

/- ===== Lemmas: table cells ===== -/

theorem getCell_eq (cols row : List String) (c : String) :
    getCell cols row c = (row[List.indexOf c cols]?).getD "" := by
  simp [getCell, List.getD_eq_getElem?_getD]

theorem getCell_nil (cols : List String) (c : String) : getCell cols [] c = "" := by
  simp [getCell]

/-- Appending a fresh column (with `""` appended to a row of matching
    length) changes no cell read. -/
theorem getCell_pad {cols row : List String} {cNew : String}
    (hr : row.length = cols.length) (c : String) :
    getCell (cols ++ [cNew]) (row ++ [""]) c = getCell cols row c := by
  rw [getCell_eq, getCell_eq]
  by_cases hmem : c ∈ cols
  · rw [List.indexOf_append_of_mem hmem]
    have hlt : List.indexOf c cols < cols.length := List.indexOf_lt_length.mpr hmem
    rw [List.getElem?_append_left (by omega)]
  · rw [List.indexOf_append_of_not_mem hmem, List.indexOf_eq_length.mpr hmem]
    have hR : (row[cols.length]? : Option String) = none :=
      List.getElem?_eq_none (by omega)
    rw [hR]
    by_cases hne : c = cNew
    · subst hne
      rw [List.indexOf_cons_self]
      rw [List.getElem?_append_right (by omega)]
      have h0 : cols.length + 0 - row.length = 0 := by omega
      rw [h0]
      rfl
    · have h0 : List.indexOf c [cNew] = 1 := by
        simp [List.indexOf_cons, beq_iff_eq, Ne.symm hne]
      rw [h0]
      have h2 : ((row ++ [""])[cols.length + 1]? : Option String) = none :=
        List.getElem?_eq_none (by simp; omega)
      rw [h2]

/-- Setting the cell of column `c` (present in `cols`) then reading it back. -/
theorem getCell_set_self {cols row : List String} {c v : String}
    (hmem : c ∈ cols) (hr : row.length = cols.length) :
    getCell cols (row.set (List.indexOf c cols) v) c = v := by
  rw [getCell_eq]
  have hlt : List.indexOf c cols < row.length := by
    rw [hr]
    exact List.indexOf_lt_length.mpr hmem
  rw [List.getElem?_set_self hlt]
  rfl

/-- Setting the cell of column `c` does not change any other column read. -/
theorem getCell_set_other {cols row : List String} {c c₀ v : String}
    (hne : c₀ ≠ c) (hr : row.length = cols.length) :
    getCell cols (row.set (List.indexOf c cols) v) c₀ = getCell cols row c₀ := by
  rw [getCell_eq, getCell_eq]
  by_cases hmem : c₀ ∈ cols
  · have hlt0 : List.indexOf c₀ cols < cols.length := List.indexOf_lt_length.mpr hmem
    have hne' : List.indexOf c cols ≠ List.indexOf c₀ cols := by
      intro heq
      by_cases hcm : c ∈ cols
      · apply hne
        have hltc : List.indexOf c cols < cols.length := heq ▸ hlt0
        have h1 : cols.get ⟨List.indexOf c cols, hltc⟩ = c := List.indexOf_get hltc
        have h2 : cols.get ⟨List.indexOf c₀ cols, hlt0⟩ = c₀ := List.indexOf_get hlt0
        rw [← h1, ← h2]
        exact congrArg cols.get (Fin.ext heq.symm)
      · rw [List.indexOf_eq_length.mpr hcm] at heq
        omega
    rw [List.getElem?_set_ne hne']
  · have hge : cols.length ≤ List.indexOf c₀ cols := by
      rw [List.indexOf_eq_length.mpr hmem]
    have h1 : ((row.set (List.indexOf c cols) v)[List.indexOf c₀ cols]? : Option String)
        = none := List.getElem?_eq_none (by simp; omega)
    have h2 : (row[List.indexOf c₀ cols]? : Option String) = none :=
      List.getElem?_eq_none (by omega)
    rw [h1, h2]

theorem contains_iff {l : List String} {a : String} : l.contains a = true ↔ a ∈ l :=
  List.elem_iff

theorem rowsGetD (rows : List (List String)) (j : Nat) :
    rows.getD j [] = (rows[j]?).getD [] := by
  simp [List.getD_eq_getElem?_getD]

theorem getD_mem {rows : List (List String)} {j : Nat} (h : j < rows.length) :
    rows.getD j [] ∈ rows := by
  rw [rowsGetD, List.getElem?_eq_getElem h]
  exact List.getElem_mem h

/-- What one iteration of the update loop does to every cell read:
    lengths and well-formedness are preserved, rows other than `idx` are
    untouched (at every column), and row `idx` changes exactly at column
    `c`, which now reads `v`. -/
theorem updStep_spec (idx : Nat) (cols : List String) (rows : List (List String))
    (c v : String)
    (hwf : ∀ r ∈ rows, r.length = cols.length) (hidx : idx < rows.length) :
    (updStep idx (cols, rows) (c, v)).2.length = rows.length ∧
    (∀ r ∈ (updStep idx (cols, rows) (c, v)).2,
        r.length = (updStep idx (cols, rows) (c, v)).1.length) ∧
    (∀ j, j ≠ idx →
        ∀ c₀, getCell (updStep idx (cols, rows) (c, v)).1
            ((updStep idx (cols, rows) (c, v)).2.getD j []) c₀
          = getCell cols (rows.getD j []) c₀) ∧
    (∀ c₀, c₀ ≠ c →
        getCell (updStep idx (cols, rows) (c, v)).1
            ((updStep idx (cols, rows) (c, v)).2.getD idx []) c₀
          = getCell cols (rows.getD idx []) c₀) ∧
    getCell (updStep idx (cols, rows) (c, v)).1
        ((updStep idx (cols, rows) (c, v)).2.getD idx []) c = v := by
  have hrowmem : rows.getD idx [] ∈ rows := getD_mem hidx
  have hrowlen : (rows.getD idx []).length = cols.length := hwf _ hrowmem
  by_cases hcont : cols.contains c = true
  · -- the column already exists: only the cell (idx, c) is set
    have hcm : c ∈ cols := contains_iff.mp hcont
    simp only [updStep]
    rw [if_pos hcont, if_pos hcont]
    have hgd : (rows.set idx ((rows.getD idx []).set (List.indexOf c cols) v)).getD idx []
        = (rows.getD idx []).set (List.indexOf c cols) v := by
      rw [rowsGetD, List.getElem?_set_self hidx]
      rfl
    refine ⟨by simp, ?_, ?_, ?_, ?_⟩
    · intro r hr
      rcases List.mem_or_eq_of_mem_set hr with h | h
      · exact hwf r h
      · subst h
        rw [List.length_set]
        exact hrowlen
    · intro j hj c₀
      have hthis : (rows.set idx ((rows.getD idx []).set (List.indexOf c cols) v)).getD j []
          = rows.getD j [] := by
        rw [rowsGetD, List.getElem?_set_ne (Ne.symm hj), ← rowsGetD]
      rw [hthis]
    · intro c₀ hne
      rw [hgd]
      exact getCell_set_other hne hrowlen
    · rw [hgd]
      exact getCell_set_self hcm hrowlen
  · -- fresh column: it is appended (empty for all rows), then (idx, c) is set
    have hcm : c ∉ cols := fun h => hcont (contains_iff.mpr h)
    simp only [updStep]
    rw [if_neg hcont, if_neg hcont]
    have hidxP : idx < (rows.map (fun r => r ++ [""])).length := by
      simpa using hidx
    have hgdP : ∀ j, (rows.map (fun r => r ++ [""])).getD j []
        = if j < rows.length then rows.getD j [] ++ [""] else [] := by
      intro j
      by_cases hj : j < rows.length
      · rw [if_pos hj, rowsGetD, rowsGetD, List.getElem?_map,
          List.getElem?_eq_getElem hj]
        rfl
      · rw [if_neg hj, rowsGetD]
        rw [List.getElem?_eq_none (by simp; omega)]
        rfl
    have hPidx : (rows.map (fun r => r ++ [""])).getD idx [] = rows.getD idx [] ++ [""] := by
      rw [hgdP, if_pos hidx]
    have hPidxLen : (rows.getD idx [] ++ [""]).length = (cols ++ [c]).length := by
      simp only [List.length_append, List.length_singleton, hrowlen]
    have hcm' : c ∈ cols ++ [c] := by simp
    have hgd : ((rows.map (fun r => r ++ [""])).set idx
          (((rows.map (fun r => r ++ [""])).getD idx []).set
            (List.indexOf c (cols ++ [c])) v)).getD idx []
        = (rows.getD idx [] ++ [""]).set (List.indexOf c (cols ++ [c])) v := by
      rw [rowsGetD, List.getElem?_set_self hidxP, hPidx]
      rfl
    refine ⟨by simp, ?_, ?_, ?_, ?_⟩
    · intro r hr
      rcases List.mem_or_eq_of_mem_set hr with h | h
      · obtain ⟨r₀, hr₀, rfl⟩ := List.mem_map.mp h
        simp [hwf r₀ hr₀]
      · subst h
        rw [List.length_set, hPidx]
        exact hPidxLen
    · intro j hj c₀
      have hstep : ((rows.map (fun r => r ++ [""])).set idx
            (((rows.map (fun r => r ++ [""])).getD idx []).set
              (List.indexOf c (cols ++ [c])) v)).getD j []
          = (rows.map (fun r => r ++ [""])).getD j [] := by
        rw [rowsGetD, List.getElem?_set_ne (Ne.symm hj), ← rowsGetD]
      rw [hstep, hgdP]
      by_cases hjl : j < rows.length
      · rw [if_pos hjl]
        exact getCell_pad (hwf _ (getD_mem hjl)) c₀
      · rw [if_neg hjl]
        have hR : rows.getD j [] = [] := by
          rw [rowsGetD, List.getElem?_eq_none (by omega)]
          rfl
        rw [hR, getCell_nil, getCell_nil]
    · intro c₀ hne
      rw [hgd, getCell_set_other hne hPidxLen]
      exact getCell_pad hrowlen c₀
    · rw [hgd]
      exact getCell_set_self hcm' hPidxLen

/-- The whole update loop: lengths and well-formedness are preserved, rows
    other than `idx` keep every cell, and columns of row `idx` not named in
    the update list keep their cells. -/
theorem applyUpdate_spec (idx : Nat) :
    ∀ (U : List (String × String)) (cols : List String) (rows : List (List String)),
    (∀ r ∈ rows, r.length = cols.length) → idx < rows.length →
    (applyUpdate idx U cols rows).2.length = rows.length ∧
    (∀ r ∈ (applyUpdate idx U cols rows).2,
        r.length = (applyUpdate idx U cols rows).1.length) ∧
    (∀ j, j ≠ idx → ∀ c₀,
        getCell (applyUpdate idx U cols rows).1
            ((applyUpdate idx U cols rows).2.getD j []) c₀
          = getCell cols (rows.getD j []) c₀) ∧
    (∀ c₀, c₀ ∉ U.map Prod.fst →
        getCell (applyUpdate idx U cols rows).1
            ((applyUpdate idx U cols rows).2.getD idx []) c₀
          = getCell cols (rows.getD idx []) c₀) := by
  intro U
  induction U with
  | nil =>
    intro cols rows hwf hidx
    exact ⟨rfl, hwf, fun j hj c₀ => rfl, fun c₀ hc₀ => rfl⟩
  | cons cv U ih =>
    intro cols rows hwf hidx
    obtain ⟨c, v⟩ := cv
    obtain ⟨s1, s2, s3, s4, s5⟩ := updStep_spec idx cols rows c v hwf hidx
    have hidx' : idx < (updStep idx (cols, rows) (c, v)).2.length := by
      rw [s1]
      exact hidx
    have hfold : applyUpdate idx ((c, v) :: U) cols rows
        = applyUpdate idx U (updStep idx (cols, rows) (c, v)).1
            (updStep idx (cols, rows) (c, v)).2 := rfl
    obtain ⟨f1, f2, f3, f4⟩ :=
      ih (updStep idx (cols, rows) (c, v)).1 (updStep idx (cols, rows) (c, v)).2 s2 hidx'
    refine ⟨?_, ?_, ?_, ?_⟩
    · rw [hfold, f1, s1]
    · rw [hfold]
      exact f2
    · intro j hj c₀
      rw [hfold, f3 j hj c₀, s3 j hj c₀]
    · intro c₀ hc₀
      have hc₀U : c₀ ∉ U.map Prod.fst := fun h => hc₀ (by simp [h])
      have hc₀c : c₀ ≠ c := fun h => hc₀ (by simp [h])
      rw [hfold, f4 c₀ hc₀U, s4 c₀ hc₀c]

/-- After the update loop, row `idx` reads the update's value at every
    updated column (update keys assumed distinct, as `df.columns` are). -/
theorem applyUpdate_write (idx : Nat) :
    ∀ (U : List (String × String)) (cols : List String) (rows : List (List String)),
    (∀ r ∈ rows, r.length = cols.length) → idx < rows.length →
    (U.map Prod.fst).Nodup →
    ∀ c v, (c, v) ∈ U →
    getCell (applyUpdate idx U cols rows).1
        ((applyUpdate idx U cols rows).2.getD idx []) c = v := by
  intro U
  induction U with
  | nil =>
    intro cols rows _ _ _ c v h
    simp at h
  | cons cv U ih =>
    intro cols rows hwf hidx hnodup c v hmem
    obtain ⟨c₀, v₀⟩ := cv
    obtain ⟨s1, s2, s3, s4, s5⟩ := updStep_spec idx cols rows c₀ v₀ hwf hidx
    have hidx' : idx < (updStep idx (cols, rows) (c₀, v₀)).2.length := by
      rw [s1]
      exact hidx
    have hfold : applyUpdate idx ((c₀, v₀) :: U) cols rows
        = applyUpdate idx U (updStep idx (cols, rows) (c₀, v₀)).1
            (updStep idx (cols, rows) (c₀, v₀)).2 := rfl
    simp only [List.map_cons, List.nodup_cons] at hnodup
    rw [hfold]
    rcases List.mem_cons.mp hmem with h | h
    · rw [Prod.mk.injEq] at h
      obtain ⟨rfl, rfl⟩ := h
      obtain ⟨f1, f2, f3, f4⟩ := applyUpdate_spec idx U _ _ s2 hidx'
      rw [f4 c hnodup.1]
      exact s5
    · exact ih _ _ s2 hidx' hnodup.2 c v h

/-- `countP` as a sum of indicators over row indices. -/
theorem countP_eq_sum {α : Type} (p : α → Bool) (d : α) :
    ∀ l : List α, l.countP p
      = Finset.sum (Finset.range l.length)
          (fun j => if p (l.getD j d) = true then 1 else 0) := by
  intro l
  induction l with
  | nil => simp
  | cons a l ih =>
    rw [List.countP_cons, List.length_cons, Finset.sum_range_succ']
    simp only [List.getD_cons_succ, List.getD_cons_zero]
    rw [ih]

theorem getD_eq_getElem {rows : List (List String)} {j : Nat} (h : j < rows.length) :
    rows.getD j [] = rows[j] := by
  rw [rowsGetD, List.getElem?_eq_getElem h]
  rfl

theorem registro_cols (ctx : Ctx) (lead : List (String × Valor)) :
    (registroFull ctx lead).map Prod.fst = colunas_reais := rfl

theorem registro_nodup (ctx : Ctx) (lead : List (String × Valor)) :
    ((registroFull ctx lead).map Prod.fst).Nodup := by
  rw [registro_cols]
  decide

theorem registro_key_mem (ctx : Ctx) (lead : List (String × Valor)) :
    ("dedup_key", gerar_dedup_key (registroOf ctx lead)) ∈ registroFull ctx lead :=
  List.mem_append_right _ (List.mem_singleton.mpr rfl)

theorem registro_key_lookup (ctx : Ctx) (lead : List (String × Valor)) :
    lookupD (registroFull ctx lead) "dedup_key" ""
      = gerar_dedup_key (registroOf ctx lead) := rfl

theorem upsertXlsx_update (registro : List (String × String)) (atual : Table)
    (hcond : (atual.cols.contains "dedup_key" &&
        atual.rows.any (fun r => getCell atual.cols r "dedup_key"
          == lookupD registro "dedup_key" "")) = true) :
    upsertXlsx registro atual
      = (⟨(applyUpdate (atual.rows.findIdx (fun r => getCell atual.cols r "dedup_key"
              == lookupD registro "dedup_key" "")) registro atual.cols atual.rows).1,
          (applyUpdate (atual.rows.findIdx (fun r => getCell atual.cols r "dedup_key"
              == lookupD registro "dedup_key" "")) registro atual.cols atual.rows).2⟩,
         "updated") := by
  unfold upsertXlsx
  rw [if_pos hcond]

theorem upsertXlsx_concat (registro : List (String × String)) (atual : Table)
    (hcond : (atual.cols.contains "dedup_key" &&
        atual.rows.any (fun r => getCell atual.cols r "dedup_key"
          == lookupD registro "dedup_key" "")) = false) :
    upsertXlsx registro atual
      = (concatTables atual (registro.map Prod.fst) (registro.map Prod.snd),
         "created") := by
  unfold upsertXlsx
  rw [if_neg (by rw [hcond]; exact Bool.false_ne_true)]

theorem salvar_table (ctx : Ctx) (lead : List (String × Valor)) (atual : Table)
    (csv : CsvFile) :
    salvar_lead ctx lead ⟨.table atual, csv⟩
      = (⟨.table (upsertXlsx (registroFull ctx lead) atual).1, csv⟩, .xlsx,
         (upsertXlsx (registroFull ctx lead) atual).2) := rfl

theorem concatTables_length (atual : Table) (dfCols dfRow : List String) :
    (concatTables atual dfCols dfRow).rows.length = atual.rows.length + 1 := by
  simp [concatTables]

/-- If some row matches the entry's key and the dedup cells of the rows are
    pairwise distinct, exactly one row matches. -/
theorem countP_key_unique (cols : List String) (rows : List (List String)) (K : String)
    (hnodup : (rows.map (fun r => getCell cols r "dedup_key")).Nodup)
    (i : Nat) (hi : i < rows.length)
    (hit : (getCell cols (rows.getD i []) "dedup_key" == K) = true) :
    rows.countP (fun r => getCell cols r "dedup_key" == K) = 1 := by
  rw [countP_eq_sum _ []]
  rw [Finset.sum_eq_single_of_mem i (Finset.mem_range.mpr hi)]
  · rw [if_pos hit]
  · intro b hb hbi
    rw [if_neg]
    intro hbK
    have hb' : b < rows.length := Finset.mem_range.mp hb
    have hKi : getCell cols (rows.getD i []) "dedup_key" = K := by
      simpa using hit
    have hKb : getCell cols (rows.getD b []) "dedup_key" = K := by
      simpa using hbK
    have hmb : b < (rows.map (fun r => getCell cols r "dedup_key")).length := by
      simpa using hb'
    have hmi : i < (rows.map (fun r => getCell cols r "dedup_key")).length := by
      simpa using hi
    have hgb : (rows.map (fun r => getCell cols r "dedup_key")).get ⟨b, hmb⟩
        = getCell cols (rows.getD b []) "dedup_key" := by
      rw [List.get_eq_getElem, List.getElem_map, getD_eq_getElem hb']
    have hgi : (rows.map (fun r => getCell cols r "dedup_key")).get ⟨i, hmi⟩
        = getCell cols (rows.getD i []) "dedup_key" := by
      rw [List.get_eq_getElem, List.getElem_map, getD_eq_getElem hi]
    have heq : (rows.map (fun r => getCell cols r "dedup_key")).get ⟨b, hmb⟩
        = (rows.map (fun r => getCell cols r "dedup_key")).get ⟨i, hmi⟩ := by
      rw [hgb, hgi, hKi, hKb]
    have := List.nodup_iff_injective_get.mp hnodup heq
    exact hbi (congrArg Fin.val this)

attribute [irreducible] updStep applyUpdate

/-- Full characterisation of the update path of the upsert: when the loaded
    primary table has a `dedup_key` column and some row matches the entry's
    key, the result is status `"updated"` and a table with the same number
    of rows in which the *first* matching row (index `findIdx`) carries the
    entry's values in every entry column, every other row reads unchanged at
    every column, and the number of rows matching the key is exactly
    preserved. -/
theorem upsert_update_master (ctx : Ctx) (lead : List (String × Valor)) (atual : Table)
    (hwf : ∀ r ∈ atual.rows, r.length = atual.cols.length)
    (hcol : atual.cols.contains "dedup_key" = true)
    (hany : atual.rows.any (fun r => getCell atual.cols r "dedup_key"
        == gerar_dedup_key (registroOf ctx lead)) = true) :
    upsertXlsx (registroFull ctx lead) atual
      = (⟨(applyUpdate (atual.rows.findIdx (fun r => getCell atual.cols r "dedup_key"
              == gerar_dedup_key (registroOf ctx lead)))
            (registroFull ctx lead) atual.cols atual.rows).1,
          (applyUpdate (atual.rows.findIdx (fun r => getCell atual.cols r "dedup_key"
              == gerar_dedup_key (registroOf ctx lead)))
            (registroFull ctx lead) atual.cols atual.rows).2⟩, "updated") ∧
    (atual.rows.findIdx (fun r => getCell atual.cols r "dedup_key"
        == gerar_dedup_key (registroOf ctx lead)) < atual.rows.length ∧
     (getCell atual.cols (atual.rows.getD (atual.rows.findIdx
          (fun r => getCell atual.cols r "dedup_key"
            == gerar_dedup_key (registroOf ctx lead))) []) "dedup_key"
        == gerar_dedup_key (registroOf ctx lead)) = true) ∧
    ((upsertXlsx (registroFull ctx lead) atual).1.rows.length = atual.rows.length ∧
     (∀ r ∈ (upsertXlsx (registroFull ctx lead) atual).1.rows,
        r.length = (upsertXlsx (registroFull ctx lead) atual).1.cols.length)) ∧
    (∀ c v, (c, v) ∈ registroFull ctx lead →
       getCell (upsertXlsx (registroFull ctx lead) atual).1.cols
         ((upsertXlsx (registroFull ctx lead) atual).1.rows.getD
           (atual.rows.findIdx (fun r => getCell atual.cols r "dedup_key"
             == gerar_dedup_key (registroOf ctx lead))) []) c = v) ∧
    (∀ j, j ≠ atual.rows.findIdx (fun r => getCell atual.cols r "dedup_key"
        == gerar_dedup_key (registroOf ctx lead)) →
      ∀ c₀, getCell (upsertXlsx (registroFull ctx lead) atual).1.cols
          ((upsertXlsx (registroFull ctx lead) atual).1.rows.getD j []) c₀
        = getCell atual.cols (atual.rows.getD j []) c₀) ∧
    (upsertXlsx (registroFull ctx lead) atual).1.rows.countP
        (fun r => getCell (upsertXlsx (registroFull ctx lead) atual).1.cols r "dedup_key"
          == gerar_dedup_key (registroOf ctx lead))
      = atual.rows.countP (fun r => getCell atual.cols r "dedup_key"
          == gerar_dedup_key (registroOf ctx lead)) := by
  have hcond : (atual.cols.contains "dedup_key" &&
      atual.rows.any (fun r => getCell atual.cols r "dedup_key"
        == lookupD (registroFull ctx lead) "dedup_key" "")) = true := by
    rw [registro_key_lookup, hcol, hany]
    rfl
  have hup := upsertXlsx_update (registroFull ctx lead) atual hcond
  rw [registro_key_lookup] at hup
  have hexists : ∃ r, r ∈ atual.rows ∧ (getCell atual.cols r "dedup_key"
      == gerar_dedup_key (registroOf ctx lead)) = true := by
    rw [List.any_eq_true] at hany
    exact hany
  have hidxlt : atual.rows.findIdx (fun r => getCell atual.cols r "dedup_key"
      == gerar_dedup_key (registroOf ctx lead)) < atual.rows.length :=
    List.findIdx_lt_length.mpr (by simpa using hexists)
  have hidxp : (getCell atual.cols (atual.rows.getD (atual.rows.findIdx
      (fun r => getCell atual.cols r "dedup_key"
        == gerar_dedup_key (registroOf ctx lead))) []) "dedup_key"
      == gerar_dedup_key (registroOf ctx lead)) = true := by
    rw [getD_eq_getElem hidxlt]
    exact @List.findIdx_getElem _ _ _ hidxlt
  obtain ⟨f1, f2, f3, f4⟩ :=
    applyUpdate_spec (atual.rows.findIdx (fun r => getCell atual.cols r "dedup_key"
        == gerar_dedup_key (registroOf ctx lead)))
      (registroFull ctx lead) atual.cols atual.rows hwf hidxlt
  have hwrite := applyUpdate_write (atual.rows.findIdx
      (fun r => getCell atual.cols r "dedup_key"
        == gerar_dedup_key (registroOf ctx lead)))
      (registroFull ctx lead) atual.cols atual.rows hwf hidxlt
      (registro_nodup ctx lead)
  rw [hup]
  refine ⟨rfl, ⟨hidxlt, hidxp⟩, ⟨f1, f2⟩, hwrite, f3, ?_⟩
  -- the count of key-matching rows is preserved
  rw [countP_eq_sum _ [], countP_eq_sum _ [], f1]
  apply Finset.sum_congr rfl
  intro j hj
  by_cases hji : j = atual.rows.findIdx (fun r => getCell atual.cols r "dedup_key"
      == gerar_dedup_key (registroOf ctx lead))
  · subst hji
    rw [if_pos hidxp, if_pos]
    have hkey := hwrite "dedup_key" (gerar_dedup_key (registroOf ctx lead))
      (registro_key_mem ctx lead)
    rw [hkey]
    exact beq_self_eq_true _
  · rw [f3 j hji "dedup_key"]

/- ===== C2 ===== -/

/-- C2: against a loaded primary table whose rows all have the table's
    width and whose dedup cells are pairwise distinct (the at-most-one-row-
    per-key invariant), upserting an entry whose dedup key already occurs
    returns status `"updated"` and leaves exactly one row for that key —
    the first matching row, now carrying the entry's value in every entry
    column — without changing the row count; upserting an entry whose key
    does not occur returns `"created"` and increases the row count by
    exactly one. -/
theorem spec_c2 (ctx : Ctx) (lead : List (String × Valor)) (atual : Table)
    (csv : CsvFile)
    (hwf : ∀ r ∈ atual.rows, r.length = atual.cols.length)
    (hinv : (atual.rows.map (fun r => getCell atual.cols r "dedup_key")).Nodup) :
    ((atual.cols.contains "dedup_key" &&
        atual.rows.any (fun r => getCell atual.cols r "dedup_key"
          == gerar_dedup_key (registroOf ctx lead))) = true →
      (salvar_lead ctx lead ⟨.table atual, csv⟩).2.2 = "updated" ∧
      ∃ t : Table, (salvar_lead ctx lead ⟨.table atual, csv⟩).1.xlsx = .table t ∧
        t.rows.length = atual.rows.length ∧
        t.rows.countP (fun r => getCell t.cols r "dedup_key"
          == gerar_dedup_key (registroOf ctx lead)) = 1 ∧
        getCell t.cols (t.rows.getD (atual.rows.findIdx
            (fun r => getCell atual.cols r "dedup_key"
              == gerar_dedup_key (registroOf ctx lead))) []) "dedup_key"
          = gerar_dedup_key (registroOf ctx lead) ∧
        (∀ c v, (c, v) ∈ registroFull ctx lead →
          getCell t.cols (t.rows.getD (atual.rows.findIdx
            (fun r => getCell atual.cols r "dedup_key"
              == gerar_dedup_key (registroOf ctx lead))) []) c = v)) ∧
    ((atual.cols.contains "dedup_key" &&
        atual.rows.any (fun r => getCell atual.cols r "dedup_key"
          == gerar_dedup_key (registroOf ctx lead))) = false →
      (salvar_lead ctx lead ⟨.table atual, csv⟩).2.2 = "created" ∧
      ∃ t : Table, (salvar_lead ctx lead ⟨.table atual, csv⟩).1.xlsx = .table t ∧
        t.rows.length = atual.rows.length + 1) := by
  constructor
  · intro hcond
    rw [Bool.and_eq_true] at hcond
    obtain ⟨hcol, hany⟩ := hcond
    obtain ⟨hup, ⟨hidxlt, hidxp⟩, ⟨hlen, _⟩, hwrite, _, hcount⟩ :=
      upsert_update_master ctx lead atual hwf hcol hany
    rw [salvar_table, hup]
    rw [hup] at hlen hwrite hcount
    refine ⟨rfl, ⟨_, rfl, hlen, ?_, ?_, hwrite⟩⟩
    · exact hcount.trans (countP_key_unique atual.cols atual.rows _ hinv _ hidxlt hidxp)
    · exact hwrite "dedup_key" _ (registro_key_mem ctx lead)
  · intro hcond
    have hcond' : (atual.cols.contains "dedup_key" &&
        atual.rows.any (fun r => getCell atual.cols r "dedup_key"
          == lookupD (registroFull ctx lead) "dedup_key" "")) = false := by
      rw [registro_key_lookup]
      exact hcond
    have hcc := upsertXlsx_concat (registroFull ctx lead) atual hcond'
    rw [salvar_table, hcc]
    exact ⟨rfl, _, rfl, concatTables_length atual _ _⟩

/- ===== C10 ===== -/

/-- C10: when the loaded primary table contains two or more rows matching
    the entry's dedup key, the upsert overwrites only the first such row
    (every index before it does not match, and every other row is unchanged
    at every column), returns `"updated"`, and preserves the number of
    matching rows — so the at-most-one-row-per-key invariant, already
    violated, is never re-established. -/
theorem spec_c10 (ctx : Ctx) (lead : List (String × Valor)) (atual : Table)
    (csv : CsvFile)
    (hwf : ∀ r ∈ atual.rows, r.length = atual.cols.length)
    (hcol : atual.cols.contains "dedup_key" = true)
    (h2 : 2 ≤ atual.rows.countP (fun r => getCell atual.cols r "dedup_key"
        == gerar_dedup_key (registroOf ctx lead))) :
    (salvar_lead ctx lead ⟨.table atual, csv⟩).2.2 = "updated" ∧
    (∀ j < atual.rows.findIdx (fun r => getCell atual.cols r "dedup_key"
        == gerar_dedup_key (registroOf ctx lead)),
      (getCell atual.cols (atual.rows.getD j []) "dedup_key"
        == gerar_dedup_key (registroOf ctx lead)) = false) ∧
    ∃ t : Table, (salvar_lead ctx lead ⟨.table atual, csv⟩).1.xlsx = .table t ∧
      (∀ c v, (c, v) ∈ registroFull ctx lead →
        getCell t.cols (t.rows.getD (atual.rows.findIdx
          (fun r => getCell atual.cols r "dedup_key"
            == gerar_dedup_key (registroOf ctx lead))) []) c = v) ∧
      (∀ j, j ≠ atual.rows.findIdx (fun r => getCell atual.cols r "dedup_key"
          == gerar_dedup_key (registroOf ctx lead)) →
        ∀ c₀, getCell t.cols (t.rows.getD j []) c₀
          = getCell atual.cols (atual.rows.getD j []) c₀) ∧
      t.rows.countP (fun r => getCell t.cols r "dedup_key"
          == gerar_dedup_key (registroOf ctx lead))
        = atual.rows.countP (fun r => getCell atual.cols r "dedup_key"
          == gerar_dedup_key (registroOf ctx lead)) ∧
      2 ≤ t.rows.countP (fun r => getCell t.cols r "dedup_key"
          == gerar_dedup_key (registroOf ctx lead)) := by
  have hpos : 0 < atual.rows.countP (fun r => getCell atual.cols r "dedup_key"
      == gerar_dedup_key (registroOf ctx lead)) := by omega
  have hany : atual.rows.any (fun r => getCell atual.cols r "dedup_key"
      == gerar_dedup_key (registroOf ctx lead)) = true := by
    rw [List.any_eq_true]
    obtain ⟨r, hr, hpr⟩ := List.countP_pos_iff.mp hpos
    exact ⟨r, hr, hpr⟩
  obtain ⟨hup, ⟨hidxlt, _⟩, _, hwrite, hother, hcount⟩ :=
    upsert_update_master ctx lead atual hwf hcol hany
  rw [salvar_table, hup]
  rw [hup] at hwrite hother hcount
  refine ⟨rfl, ?_, ⟨_, rfl, hwrite, hother, hcount, ?_⟩⟩
  · intro j hj
    have hjl : j < atual.rows.length :=
      lt_of_lt_of_le hj (List.findIdx_le_length _)
    rw [getD_eq_getElem hjl]
    exact List.not_of_lt_findIdx hj
  · rw [hcount]
    exact h2

/-- C2 witness: the theorem applied to `tabela1`, whose single row already
    carries `lead1`'s dedup key, with the matching branch taken. -/
theorem spec_c2_witness :
    (∀ r ∈ tabela1.rows, r.length = tabela1.cols.length) ∧
    (tabela1.rows.map (fun r => getCell tabela1.cols r "dedup_key")).Nodup ∧
    (tabela1.cols.contains "dedup_key" &&
        tabela1.rows.any (fun r => getCell tabela1.cols r "dedup_key"
          == gerar_dedup_key (registroOf ctx0 lead1))) = true ∧
    ((salvar_lead ctx0 lead1 ⟨.table tabela1, .absent⟩).2.2 = "updated" ∧
     ∃ t : Table, (salvar_lead ctx0 lead1 ⟨.table tabela1, .absent⟩).1.xlsx = .table t ∧
       t.rows.length = tabela1.rows.length ∧
       t.rows.countP (fun r => getCell t.cols r "dedup_key"
         == gerar_dedup_key (registroOf ctx0 lead1)) = 1 ∧
       getCell t.cols (t.rows.getD (tabela1.rows.findIdx
           (fun r => getCell tabela1.cols r "dedup_key"
             == gerar_dedup_key (registroOf ctx0 lead1))) []) "dedup_key"
         = gerar_dedup_key (registroOf ctx0 lead1) ∧
       (∀ c v, (c, v) ∈ registroFull ctx0 lead1 →
         getCell t.cols (t.rows.getD (tabela1.rows.findIdx
           (fun r => getCell tabela1.cols r "dedup_key"
             == gerar_dedup_key (registroOf ctx0 lead1))) []) c = v)) :=
  ⟨by decide, by decide, by decide,
    (spec_c2 ctx0 lead1 tabela1 .absent (by decide) (by decide)).1 (by decide)⟩

/-- C10 witness: the theorem applied to `tabela2`, which holds two rows
    with `lead1`'s dedup key. -/
theorem spec_c10_witness :
    (∀ r ∈ tabela2.rows, r.length = tabela2.cols.length) ∧
    tabela2.cols.contains "dedup_key" = true ∧
    2 ≤ tabela2.rows.countP (fun r => getCell tabela2.cols r "dedup_key"
        == gerar_dedup_key (registroOf ctx0 lead1)) ∧
    ((salvar_lead ctx0 lead1 ⟨.table tabela2, .absent⟩).2.2 = "updated" ∧
     (∀ j < tabela2.rows.findIdx (fun r => getCell tabela2.cols r "dedup_key"
         == gerar_dedup_key (registroOf ctx0 lead1)),
       (getCell tabela2.cols (tabela2.rows.getD j []) "dedup_key"
         == gerar_dedup_key (registroOf ctx0 lead1)) = false) ∧
     ∃ t : Table, (salvar_lead ctx0 lead1 ⟨.table tabela2, .absent⟩).1.xlsx = .table t ∧
       (∀ c v, (c, v) ∈ registroFull ctx0 lead1 →
         getCell t.cols (t.rows.getD (tabela2.rows.findIdx
           (fun r => getCell tabela2.cols r "dedup_key"
             == gerar_dedup_key (registroOf ctx0 lead1))) []) c = v) ∧
       (∀ j, j ≠ tabela2.rows.findIdx (fun r => getCell tabela2.cols r "dedup_key"
           == gerar_dedup_key (registroOf ctx0 lead1)) →
         ∀ c₀, getCell t.cols (t.rows.getD j []) c₀
           = getCell tabela2.cols (tabela2.rows.getD j []) c₀) ∧
       t.rows.countP (fun r => getCell t.cols r "dedup_key"
           == gerar_dedup_key (registroOf ctx0 lead1))
         = tabela2.rows.countP (fun r => getCell tabela2.cols r "dedup_key"
           == gerar_dedup_key (registroOf ctx0 lead1)) ∧
       2 ≤ t.rows.countP (fun r => getCell t.cols r "dedup_key"
           == gerar_dedup_key (registroOf ctx0 lead1))) :=
  ⟨by decide, by decide, by decide,
    spec_c10 ctx0 lead1 tabela2 .absent (by decide) (by decide) (by decide)⟩

end Imob
